import Mathlib

/-!
Verification development for the keyword-extraction and comparison engine
of a web-page analysis service.  The core of the service is a Python module
with two functions: analyze_single_url (fetch a page, clean its text,
detect the language, tokenize, filter, score terms with TF-IDF and keep
the top 20) and analyze (run analyze_single_url over an ordered list of
URLs and compare the resulting keyword sets).

The definitions below are a shallow embedding of that code.  External
libraries (the HTTP client, the HTML parser, the language detector, the
NLTK tokenizer, the sklearn vectorizer and the NLTK stopword corpora) are
modelled as parameters collected in an Env structure; everything the
module itself computes is translated directly.  Strings of text are
modelled as List Char where character-level work happens.
-/

namespace SaasAnalyzer

/-- Model of the character class matched by the regex token backslash-w in
Python (re, Unicode mode restricted to the alphanumeric model used here):
letters, digits, or the underscore. -/
def pyWordChar (c : Char) : Bool := c.isAlphanum || c == '_'

/-- Helper for collapseWs: the flag records whether the previous character
belonged to a whitespace run whose replacement space was already
emitted. -/
def collapseWsAux : Bool → List Char → List Char
  | _, [] => []
  | inRun, c :: cs =>
    if c.isWhitespace then
      if inRun then collapseWsAux true cs
      else ' ' :: collapseWsAux true cs
    else c :: collapseWsAux false cs

/-- Model of re.sub applied with pattern backslash-s-plus and replacement
a single space: every maximal run of whitespace characters is replaced by
one space character. -/
def collapseWs (l : List Char) : List Char :=
  collapseWsAux false l

/-- Model of the Python str.strip method on a character list: drop leading
and trailing whitespace. -/
def pyStrip (l : List Char) : List Char :=
  ((l.dropWhile Char.isWhitespace).reverse.dropWhile Char.isWhitespace).reverse

/-- Lines 207-208 of app.py:
text = re.sub(whitespace-run, one space, text).strip() followed by
text = re.sub(not word-char and not whitespace, empty, text). -/
def cleanText (l : List Char) : List Char :=
  (pyStrip (collapseWs l)).filter (fun c => pyWordChar c || c.isWhitespace)

theorem mem_collapseWsAux_ws {c : Char} {l : List Char} :
    ∀ {b : Bool}, c ∈ collapseWsAux b l → c.isWhitespace → c = ' ' := by
  induction l with
  | nil => intro b h _; simp [collapseWsAux] at h
  | cons d cs ih =>
    intro b h hws
    by_cases hd : d.isWhitespace
    · rcases b with _ | _
      · rw [collapseWsAux, if_pos hd, if_neg (by simp)] at h
        rcases List.mem_cons.mp h with h1 | h1
        · exact h1
        · exact ih h1 hws
      · rw [collapseWsAux, if_pos hd, if_pos rfl] at h
        exact ih h hws
    · rw [collapseWsAux, if_neg hd] at h
      rcases List.mem_cons.mp h with h1 | h1
      · subst h1; exact absurd hws hd
      · exact ih h1 hws

theorem mem_collapseWs_ws {c : Char} {l : List Char}
    (h : c ∈ collapseWs l) (hws : c.isWhitespace) : c = ' ' :=
  mem_collapseWsAux_ws h hws

theorem mem_pyStrip {c : Char} {l : List Char} (h : c ∈ pyStrip l) : c ∈ l := by
  unfold pyStrip at h
  rw [List.mem_reverse] at h
  have h2 := (List.dropWhile_suffix _).sublist.mem h
  rw [List.mem_reverse] at h2
  exact (List.dropWhile_suffix _).sublist.mem h2

theorem cleanText_chars {c : Char} {l : List Char} (h : c ∈ cleanText l) :
    pyWordChar c = true ∨ c = ' ' := by
  unfold cleanText at h
  have h1 := List.mem_filter.mp h
  rcases Bool.or_eq_true _ _ |>.mp h1.2 with hw | hws
  · exact Or.inl hw
  · exact Or.inr (mem_collapseWs_ws (mem_pyStrip h1.1) hws)

/-- Lines 210-217 of app.py: the langdetect call guarded by the length
test.  The external detector is a parameter; a None result models the
detector raising an exception (caught and turned into the unknown code).
The guard in the source reads: if len(text) > 50 then detect(text) else
the string unknown. -/
def detectedLangCode (detect : List Char → Option String) (text : List Char) :
    String :=
  if text.length > 50 then
    match detect text with
    | some code => code
    | none => "unknown"
  else "unknown"

/-- Lines 219-225 of app.py: map the detector code to an NLTK language
name; any unrecognised code stays unknown. -/
def nltkLangName (code : String) : String :=
  if code = "pt" then "portuguese"
  else if code = "en" then "english"
  else if code = "es" then "spanish"
  else "unknown"

/-- Line 227 of app.py: STOPWORDS_BY_LANG.get(name, set()).  The table
built at process start has exactly the keys portuguese, english and
spanish (lines 49-57), so any other name yields the empty set.  The NLTK
corpus contents are a parameter. -/
def currentStopwords (tbl : String → Finset String) (name : String) :
    Finset String :=
  if name = "portuguese" ∨ name = "english" ∨ name = "spanish" then tbl name
  else ∅

/-- Line 229 of app.py: the language argument handed to nltk.word_tokenize
is the detected NLTK name, with english substituted when it is unknown. -/
def tokenizeLangArg (name : String) : String :=
  if name = "unknown" then "english" else name

/-- Model of the Python str.isalpha method: true on a non-empty string all
of whose characters are alphabetic. -/
def pyIsAlpha (w : String) : Bool :=
  !w.toList.isEmpty && w.toList.all Char.isAlpha

/-- Line 230 of app.py: keep a token when word.isalpha() and word not in
current_stopwords and len(word) > 2. -/
def filtered_words (stop : Finset String) (words : List String) : List String :=
  words.filter fun w => pyIsAlpha w && decide (w ∉ stop) && decide (w.length > 2)

/-- Line 232 of app.py: processed_text = " ".join(filtered_words), as a
character list. -/
def joinWords (ws : List String) : List Char :=
  (String.intercalate " " ws).toList

example : cleanText "  Ola, mundo!\n x ".toList = "Ola mundo x".toList := by decide
example : detectedLangCode (fun _ => some "en") (List.replicate 50 'a') = "unknown" := by decide
example : detectedLangCode (fun _ => some "en") (List.replicate 51 'a') = "en" := by decide
example : filtered_words {"the"} ["the", "ab", "a1c", "house"] = ["house"] := by decide

/-- One insertion step of the stable descending sort that models the
Python call sorted(pairs, key score, reverse) at line 249: an element is
placed before the first element whose score is less than or equal to its
own, so that elements with equal scores keep their original relative
order. -/
def insertDesc (x : String × ℚ) : List (String × ℚ) → List (String × ℚ)
  | [] => [x]
  | y :: ys => if y.2 ≤ x.2 then x :: y :: ys else y :: insertDesc x ys

/-- Stable sort of (term, score) pairs by descending score, the model of
sorted(word_tfidf_scores, key score, reverse) at line 249. -/
def sortDesc (l : List (String × ℚ)) : List (String × ℚ) :=
  l.foldr insertDesc []

/-- Line 249 of app.py: take the first 20 entries of the descending
sort. -/
def top_keywords (scores : List (String × ℚ)) : List (String × ℚ) :=
  (sortDesc scores).take 20

/-- Model of the Python call round(x, 4): round to four decimal places
(nearest 4-decimal value; the tie-breaking direction of the float
rounding is immaterial to every property stated here). -/
def round4 (q : ℚ) : ℚ := ((q * 10000 + 1/2).floor : ℚ) / 10000

theorem ratFloor_eq_intFloor (q : ℚ) : q.floor = ⌊q⌋ := by
  rw [Rat.floor_def', ← Rat.floor_def]

/-- Line 254 of app.py: round every score of the top-20 list to four
decimal places. -/
def top_keywords_formatted (scores : List (String × ℚ)) : List (String × ℚ) :=
  (top_keywords scores).map fun p => (p.1, round4 p.2)

theorem mem_insertDesc {a x : String × ℚ} {l : List (String × ℚ)} :
    a ∈ insertDesc x l ↔ a = x ∨ a ∈ l := by
  induction l with
  | nil => simp [insertDesc]
  | cons y ys ih =>
    by_cases h : y.2 ≤ x.2
    · simp [insertDesc, if_pos h]
    · simp only [insertDesc, if_neg h, List.mem_cons, ih]
      tauto

theorem mem_sortDesc {a : String × ℚ} {l : List (String × ℚ)} :
    a ∈ sortDesc l ↔ a ∈ l := by
  induction l with
  | nil => simp [sortDesc]
  | cons x xs ih =>
    simp only [sortDesc, List.foldr_cons] at *
    rw [mem_insertDesc, ih, List.mem_cons]

theorem pairwise_insertDesc {x : String × ℚ} {l : List (String × ℚ)}
    (h : l.Pairwise (fun a b => b.2 ≤ a.2)) :
    (insertDesc x l).Pairwise (fun a b => b.2 ≤ a.2) := by
  induction l with
  | nil => simp [insertDesc]
  | cons y ys ih =>
    rcases List.pairwise_cons.mp h with ⟨hy, hys⟩
    by_cases hc : y.2 ≤ x.2
    · rw [insertDesc, if_pos hc]
      refine List.pairwise_cons.mpr ⟨?_, h⟩
      intro b hb
      rcases List.mem_cons.mp hb with rfl | hb
      · exact hc
      · exact le_trans (hy b hb) hc
    · rw [insertDesc, if_neg hc]
      refine List.pairwise_cons.mpr ⟨?_, ih hys⟩
      intro b hb
      rcases mem_insertDesc.mp hb with rfl | hb
      · exact le_of_lt (lt_of_not_le hc)
      · exact hy b hb

theorem pairwise_sortDesc (l : List (String × ℚ)) :
    (sortDesc l).Pairwise (fun a b => b.2 ≤ a.2) := by
  induction l with
  | nil => simp [sortDesc]
  | cons x xs ih => exact pairwise_insertDesc ih

theorem filter_insertDesc (x : String × ℚ) (l : List (String × ℚ)) (s : ℚ) :
    (insertDesc x l).filter (fun p => decide (p.2 = s)) =
      if x.2 = s then x :: l.filter (fun p => decide (p.2 = s))
      else l.filter (fun p => decide (p.2 = s)) := by
  induction l with
  | nil => by_cases hx : x.2 = s <;> simp [insertDesc, hx]
  | cons y ys ih =>
    by_cases hc : y.2 ≤ x.2
    · rw [insertDesc, if_pos hc]
      by_cases hx : x.2 = s <;> simp [List.filter_cons, hx]
    · have hy : ¬ y.2 = s ∨ ¬ x.2 = s := by
        by_cases hx : x.2 = s
        · left; intro hys; exact hc (le_of_eq (hys.trans hx.symm))
        · right; exact hx
      rw [insertDesc, if_neg hc]
      by_cases hys : y.2 = s
      · rcases hy with h1 | h1
        · exact absurd hys h1
        · simp [List.filter_cons, hys, ih, h1]
      · simp [List.filter_cons, hys, ih]

theorem filter_sortDesc (l : List (String × ℚ)) (s : ℚ) :
    (sortDesc l).filter (fun p => decide (p.2 = s)) =
      l.filter (fun p => decide (p.2 = s)) := by
  induction l with
  | nil => rfl
  | cons x xs ih =>
    show (insertDesc x (sortDesc xs)).filter _ = _
    rw [filter_insertDesc]
    by_cases hx : x.2 = s
    · simp [List.filter_cons, hx, ih]
    · simp [List.filter_cons, hx, ih]

theorem round4_mono {a b : ℚ} (h : a ≤ b) : round4 a ≤ round4 b := by
  unfold round4
  rw [ratFloor_eq_intFloor, ratFloor_eq_intFloor]
  have h2 : ⌊a * 10000 + 1/2⌋ ≤ ⌊b * 10000 + 1/2⌋ :=
    Int.floor_le_floor (by linarith)
  have h3 : ((⌊a * 10000 + 1/2⌋ : ℤ) : ℚ) ≤ ((⌊b * 10000 + 1/2⌋ : ℤ) : ℚ) := by
    exact_mod_cast h2
  linarith

theorem round4_nonneg {a : ℚ} (h : 0 ≤ a) : 0 ≤ round4 a := by
  have h1 : round4 0 ≤ round4 a := round4_mono h
  have h0 : round4 0 = 0 := by
    unfold round4
    rw [ratFloor_eq_intFloor]
    norm_num
  linarith

theorem round4_round4 (a : ℚ) : round4 (round4 a) = round4 a := by
  unfold round4
  rw [ratFloor_eq_intFloor, ratFloor_eq_intFloor]
  have h1 : ((⌊a * 10000 + 1/2⌋ : ℤ) : ℚ) / 10000 * 10000 =
      ((⌊a * 10000 + 1/2⌋ : ℤ) : ℚ) := by field_simp
  rw [h1]
  have h3 : ⌊((⌊a * 10000 + 1/2⌋ : ℤ) : ℚ) + 1/2⌋ = ⌊a * 10000 + 1/2⌋ := by
    rw [Int.floor_int_add]
    norm_num
  rw [h3]

example : sortDesc [("a", 1), ("b", 3), ("c", 1), ("d", 2)] =
    [("b", 3), ("d", 2), ("a", 1), ("c", 1)] := by norm_num [sortDesc, insertDesc]
example : top_keywords_formatted [("a", 1/3), ("b", 2/3)] =
    [("b", 6667/10000), ("a", 3333/10000)] := by
  norm_num [top_keywords_formatted, top_keywords, sortDesc, insertDesc, round4,
    ratFloor_eq_intFloor]

/-- The external collaborators of analyze_single_url, as pure functions:
detect is the langdetect call (None models a raised exception); tokenize
is nltk.word_tokenize taking the language argument and the lowercased
text; vectorize is the sklearn TfidfVectorizer configured at lines
237-246, taking the stop-word set and the processed text and returning
the feature names zipped with their scores; stopTable is the NLTK
stopword corpus by language name. -/
structure Env where
  detect : List Char → Option String
  tokenize : String → List Char → List String
  vectorize : Finset String → List Char → List (String × ℚ)
  stopTable : String → Finset String

/-- Line 235 of app.py. -/
def msgInsufficient : String := "Conteúdo textual insuficiente para análise."

/-- Line 252 of app.py. -/
def msgNoKeywords : String :=
  "Não foi possível extrair palavras-chave relevantes suficientes."

/-- Line 275 of app.py, the catch-all internal error with the exception
text interpolated. -/
def msgInternal (e : String) : String :=
  "Ocorreu um erro interno no servidor: " ++ e

/-- Line 259 of app.py. -/
def msgTimeout : String :=
  "Tempo limite excedido ao acessar a URL. O site pode estar lento ou inacessível."

/-- Line 261 of app.py. -/
def msgConnection : String :=
  "Não foi possível conectar à URL. Verifique sua conexão ou se o site está online."

/-- Lines 263-271 of app.py: the HTTP error messages by status code, with
the exception text interpolated in the generic branch. -/
def msgHttp (code : Nat) (detail : String) : String :=
  if code = 404 then
    "URL não encontrada (Erro " ++ toString code ++ "). Verifique se o endereço está correto."
  else if code = 403 then
    "Acesso negado (Erro " ++ toString code ++ "). O site pode estar bloqueando a análise."
  else if code = 500 then
    "Erro interno do servidor (Erro " ++ toString code ++ ") ao acessar a URL. Tente novamente mais tarde."
  else
    "Erro HTTP " ++ toString code ++ " ao acessar a URL. Detalhes: " ++ detail

/-- Line 273 of app.py. -/
def msgRequest : String :=
  "Ocorreu um erro de rede inesperado ao acessar a URL. Verifique a URL e sua conexão."

/-- The outcome of the fetch-and-extract prefix of analyze_single_url
(lines 195-206): either the text extracted from a successfully fetched
page, or one of the exception classes raised by the requests library, or
any other exception (the catch-all at line 274). -/
inductive Fetched where
  | ok (rawText : List Char)
  | timeout
  | connectionError
  | httpError (code : Nat) (detail : String)
  | requestError
  | otherExc (e : String)
deriving DecidableEq

/-- The value analyze_single_url hands back to the analyze loop: the
error dictionary, or the keywords with the detected language. -/
inductive SingleResult where
  | error (msg : String)
  | success (keywords : List (String × ℚ)) (lang : String)
deriving DecidableEq

/-- The cleaned text of line 206-208 (soup text extraction is part of the
Fetched payload; the two regex passes are cleanText). -/
def textOf (rawText : List Char) : List Char := cleanText rawText

/-- Lines 210-225: detected language code mapped to the NLTK name. -/
def langNameOf (env : Env) (rawText : List Char) : String :=
  nltkLangName (detectedLangCode env.detect (textOf rawText))

/-- Line 227: the active stopword set. -/
def stopOf (env : Env) (rawText : List Char) : Finset String :=
  currentStopwords env.stopTable (langNameOf env rawText)

/-- Lines 229-230: tokenize the lowercased text and filter. -/
def filteredOf (env : Env) (rawText : List Char) : List String :=
  filtered_words (stopOf env rawText)
    (env.tokenize (tokenizeLangArg (langNameOf env rawText))
      ((textOf rawText).map Char.toLower))

/-- Line 232: the joined processed text. -/
def processedOf (env : Env) (rawText : List Char) : List Char :=
  joinWords (filteredOf env rawText)

/-- Lines 244-248: the vectorizer output, feature names zipped with
scores. -/
def rawScores (env : Env) (rawText : List Char) : List (String × ℚ) :=
  env.vectorize (stopOf env rawText) (processedOf env rawText)

/-- Lines 206-256 of app.py: the content pipeline of analyze_single_url
on extracted text, from cleaning to the formatted top-20 keywords. -/
def analyzeContent (env : Env) (rawText : List Char) : SingleResult :=
  if pyStrip (processedOf env rawText) = [] then .error msgInsufficient
  else if top_keywords (rawScores env rawText) = [] then .error msgNoKeywords
  else .success (top_keywords_formatted (rawScores env rawText))
    (langNameOf env rawText)

/-- Lines 189-275 of app.py: analyze_single_url with every exception
class converted to its error dictionary. -/
def analyze_single_url (env : Env) : Fetched → SingleResult
  | .ok rawText => analyzeContent env rawText
  | .timeout => .error msgTimeout
  | .connectionError => .error msgConnection
  | .httpError code detail => .error (msgHttp code detail)
  | .requestError => .error msgRequest
  | .otherExc e => .error (msgInternal e)

/-- One URL of the analyze request together with the outcome of its
fetch-and-extract prefix. -/
structure UrlInput where
  url : String
  fetch : Fetched
deriving DecidableEq

/-- One entry of individual_results (lines 316-323). -/
structure PerUrlResult where
  url : String
  status : String
  message : Option String
  top_keywords : Option (List (String × ℚ))
  detected_language : Option String
deriving DecidableEq

/-- Placeholder entry used with List.getD. -/
def dummyResult : PerUrlResult := ⟨"", "", none, none, none⟩

/-- Lines 313-323 of app.py: the per-URL loop building
individual_results in input order. -/
def individual_results (env : Env) (inputs : List UrlInput) :
    List PerUrlResult :=
  inputs.map fun u =>
    match analyze_single_url env u.fetch with
    | .error m => ⟨u.url, "error", some m, none, none⟩
    | .success kws lang => ⟨u.url, "success", none, some kws, some lang⟩

/-- Line 324 of app.py: the keyword term sets of the successful URLs, in
input order. -/
def all_keywords_for_comparison (env : Env) (inputs : List UrlInput) :
    List (Finset String) :=
  inputs.filterMap fun u =>
    match analyze_single_url env u.fetch with
    | .error _ => none
    | .success kws _ => some (kws.map Prod.fst).toFinset

/-- Lines 329-333 of app.py: the intersection of all keyword sets, the
single set itself when only one URL succeeded, empty when none did. -/
def common_keywords : List (Finset String) → Finset String
  | [] => ∅
  | s :: rest => rest.foldl (· ∩ ·) s

/-- Lines 336-339 of app.py: the inner loop over the enumerated keyword
sets subtracting every other set from the current one; i is the outer
index, j the index of the head of the remaining list. -/
def diffOthers (i : ℕ) (current : Finset String) :
    List (Finset String) → ℕ → Finset String
  | [], _ => current
  | s :: rest, j =>
    diffOthers i (if i ≠ j then current \ s else current) rest (j + 1)

/-- Lines 335-340 of app.py: the unique-keyword entries; the i-th entry
is paired with urls_to_analyze[i], indexing the full input URL list with
the position in the success-only list of keyword sets. -/
def unique_keywords_per_url (urls : List String)
    (sets : List (Finset String)) : List (String × Finset String) :=
  (List.range sets.length).map fun i =>
    (urls.getD i "", diffOthers i (sets.getD i ∅) sets 0)

/-- The comparison dictionary of the response (lines 344-347). -/
structure ComparisonResult where
  common_keywords : Finset String
  unique_keywords_per_url : List (String × Finset String)
deriving DecidableEq

/-- The response of the analyze route restricted to the analysis core
(lines 342-348; the user-limit bookkeeping is outside the core). -/
structure AnalysisResponse where
  individual_results : List PerUrlResult
  comparison : ComparisonResult
deriving DecidableEq

/-- Lines 313-348 of app.py: the analyze route body on an already
validated URL list, one Fetched outcome per URL. -/
def analyze (env : Env) (inputs : List UrlInput) : AnalysisResponse :=
  ⟨individual_results env inputs,
   ⟨common_keywords (all_keywords_for_comparison env inputs),
    unique_keywords_per_url (inputs.map (·.url))
      (all_keywords_for_comparison env inputs)⟩⟩

theorem round4_one : round4 1 = 1 := by
  unfold round4
  rw [ratFloor_eq_intFloor]
  norm_num

/-- Helper of the concrete tokenizer below: split on space characters,
accumulating the current word reversed. -/
def splitWordsAux : List Char → List Char → List String
  | [], acc => if acc.isEmpty then [] else [String.mk acc.reverse]
  | c :: cs, acc =>
    if c = ' ' then
      if acc.isEmpty then splitWordsAux cs []
      else String.mk acc.reverse :: splitWordsAux cs []
    else splitWordsAux cs (c :: acc)

/-- A concrete whitespace tokenizer for closed evaluations. -/
def splitWords (l : List Char) : List String := splitWordsAux l []

/-- A concrete instantiation of the external collaborators used to
evaluate the pipeline on closed inputs: a detector that always reports
english, a whitespace tokenizer, a vectorizer returning the single
candidate term kw with weight one, and empty stopword corpora. -/
def testEnv : Env where
  detect := fun _ => some "en"
  tokenize := fun _ text => splitWords text
  vectorize := fun _ _ => [("kw", 1)]
  stopTable := fun _ => ∅

theorem analyzeContent_testEnv : analyzeContent testEnv "hello world".toList =
    .success [("kw", 1)] "unknown" := by
  have h1 : ¬ pyStrip (processedOf testEnv "hello world".toList) = [] := by decide
  have h2 : rawScores testEnv "hello world".toList = [("kw", 1)] := rfl
  have h3 : langNameOf testEnv "hello world".toList = "unknown" := by decide
  rw [analyzeContent, if_neg h1, h2, h3]
  have h4 : top_keywords [("kw", (1:ℚ))] = [("kw", 1)] := rfl
  rw [h4, if_neg (by simp)]
  simp [top_keywords_formatted, h4, round4_one]

/-- C4, counterexample: the claim says the Text Extractor output contains
only letters, digits and spaces, every other character being removed.
The underscore is kept by the cleaning pass (the regex word class
includes it), so the output of cleanText on the input a_b contains an
underscore, which is neither a letter, nor a digit, nor a space. -/
theorem C4_counterexample :
    '_' ∈ cleanText "a_b".toList ∧
    '_'.isAlpha = false ∧ '_'.isDigit = false ∧ '_'.isWhitespace = false := by
  decide

/-- C4 (amended): for every raw extracted text, every character of the
Text Extractor output is a letter, a digit, an underscore, or a space:
after whitespace collapse and trimming, every character that is not a
word character (letter, digit or underscore) and not whitespace is
removed, and the only whitespace left is the single space. -/
theorem C4_amended {l : List Char} {c : Char} (h : c ∈ cleanText l) :
    (c.isAlphanum = true ∨ c = '_') ∨ c = ' ' := by
  rcases cleanText_chars h with hw | hs
  · rcases Bool.or_eq_true _ _ |>.mp hw with h1 | h1
    · exact Or.inl (Or.inl h1)
    · exact Or.inl (Or.inr (by simpa using h1))
  · exact Or.inr hs

theorem C4_witness :
    'a' ∈ cleanText "a!b".toList ∧
    (('a'.isAlphanum = true ∨ 'a' = '_') ∨ 'a' = ' ') :=
  ⟨by decide, @C4_amended "a!b".toList 'a' (by decide)⟩

/-- C3, counterexample: the claim says classification is skipped exactly
below 50 characters and attempted for every text of length 50 or more.
On a text of length exactly 50 the code's guard len(text) > 50 is false,
so classification is skipped even though a detector reporting en was
supplied: the result is unknown where an attempted classification would
have produced en. -/
theorem C3_counterexample :
    (List.replicate 50 'a').length = 50 ∧
    detectedLangCode (fun _ => some "en") (List.replicate 50 'a') = "unknown" ∧
    ((fun (_ : List Char) => some "en") (List.replicate 50 'a')).getD "unknown" = "en" ∧
    ("unknown" : String) ≠ "en" := by
  refine ⟨by decide, ?_, by decide, by decide⟩
  rw [detectedLangCode, if_neg (by decide)]

/-- C3 (amended): classification is skipped (yielding the unknown code,
whatever the detector would have said) exactly when the text length is
at most 50 characters; for every text of length strictly greater than
50, classification is attempted and the result is the detector's code
(unknown when the detector fails). -/
theorem C3_amended (detect : List Char → Option String) (text : List Char) :
    (text.length ≤ 50 → detectedLangCode detect text = "unknown") ∧
    (50 < text.length →
      detectedLangCode detect text = (detect text).getD "unknown") := by
  constructor
  · intro h
    rw [detectedLangCode, if_neg (by omega)]
  · intro h
    rw [detectedLangCode, if_pos h]
    cases detect text <;> rfl

theorem C3_witness :
    detectedLangCode (fun _ => some "en") (List.replicate 50 'a') = "unknown" ∧
    detectedLangCode (fun _ => some "en") (List.replicate 51 'a') = "en" :=
  ⟨(C3_amended (fun _ => some "en") (List.replicate 50 'a')).1 (by decide),
   (C3_amended (fun _ => some "en") (List.replicate 51 'a')).2 (by decide)⟩

/-- C5 (confirmed): every token kept by the Lexical Filter is a purely
alphabetic non-empty word, is not in the active stopword set, and has
length strictly greater than 2. -/
theorem C5_filter_tokens {stop : Finset String} {words : List String}
    {w : String} (h : w ∈ filtered_words stop words) :
    pyIsAlpha w = true ∧ w ∉ stop ∧ 2 < w.length := by
  unfold filtered_words at h
  have h2 := (List.mem_filter.mp h).2
  rcases Bool.and_eq_true _ _ |>.mp h2 with ⟨h3, h4⟩
  rcases Bool.and_eq_true _ _ |>.mp h3 with ⟨h5, h6⟩
  exact ⟨h5, of_decide_eq_true h6, of_decide_eq_true h4⟩

theorem C5_witness :
    "house" ∈ filtered_words {"the"} ["the", "ab", "a1c", "house"] ∧
    (pyIsAlpha "house" = true ∧ "house" ∉ ({"the"} : Finset String) ∧
      2 < "house".length) :=
  ⟨by decide,
   @C5_filter_tokens {"the"} ["the", "ab", "a1c", "house"] "house" (by decide)⟩

theorem msgNoKeywords_ne_msgInternal (e : String) :
    msgNoKeywords ≠ msgInternal e := by
  intro h
  have h1 : msgNoKeywords.data.head? = some 'N' := rfl
  have h2 : (msgInternal e).data.head? = some 'O' := rfl
  rw [h, h2] at h1
  simp at h1

/-- C2 (confirmed): when the processed (filtered) text is non-empty but
the vectorizer yields zero candidate terms, analyze_single_url fails
with the no-relevant-keywords message, which differs from the
insufficient-content message and from every instance of the generic
internal-error message. -/
theorem C2_no_relevant_keywords (env : Env) (rawText : List Char)
    (h1 : pyStrip (processedOf env rawText) ≠ [])
    (h2 : rawScores env rawText = []) :
    analyzeContent env rawText = .error msgNoKeywords ∧
    msgNoKeywords ≠ msgInsufficient ∧
    ∀ e, msgNoKeywords ≠ msgInternal e := by
  refine ⟨?_, by decide, msgNoKeywords_ne_msgInternal⟩
  rw [analyzeContent, if_neg h1, h2]
  rfl

/-- The external collaborators for the C2 witness: identical to testEnv
except that the vectorizer returns no candidate terms at all. -/
def emptyVecEnv : Env where
  detect := fun _ => some "en"
  tokenize := fun _ text => splitWords text
  vectorize := fun _ _ => []
  stopTable := fun _ => ∅

theorem C2_witness :
    pyStrip (processedOf emptyVecEnv "hello world".toList) ≠ [] ∧
    rawScores emptyVecEnv "hello world".toList = [] ∧
    (analyzeContent emptyVecEnv "hello world".toList = .error msgNoKeywords ∧
      msgNoKeywords ≠ msgInsufficient ∧
      ∀ e, msgNoKeywords ≠ msgInternal e) :=
  ⟨by decide, rfl,
   C2_no_relevant_keywords emptyVecEnv "hello world".toList (by decide) rfl⟩

theorem analyzeContent_success_eq {env : Env} {rawText : List Char}
    {kws : List (String × ℚ)} {lang : String}
    (h : analyzeContent env rawText = .success kws lang) :
    kws = top_keywords_formatted (rawScores env rawText) ∧
    lang = langNameOf env rawText := by
  rw [analyzeContent] at h
  by_cases h1 : pyStrip (processedOf env rawText) = []
  · rw [if_pos h1] at h; exact absurd h (by simp)
  · rw [if_neg h1] at h
    by_cases h2 : top_keywords (rawScores env rawText) = []
    · rw [if_pos h2] at h; exact absurd h (by simp)
    · rw [if_neg h2] at h
      injection h with ha hb
      exact ⟨ha.symm, hb.symm⟩

/-- C7 (confirmed): for every successful per-URL result whose raw
vectorizer scores are non-negative, the keyword list has at most 20
entries, every reported score is non-negative and is a fixed point of
rounding to 4 decimal places, the entries are sorted non-increasing by
score, and ties are broken by original ranking order: for every score
value, the entries of the selected top-20 carrying that score form a
prefix of the entries of the vectorizer output carrying that score, in
their original order. -/
theorem C7_keyword_entries (env : Env) (rawText : List Char)
    (kws : List (String × ℚ)) (lang : String)
    (h : analyzeContent env rawText = .success kws lang)
    (hnn : ∀ p ∈ rawScores env rawText, 0 ≤ p.2) :
    kws.length ≤ 20 ∧
    (∀ p ∈ kws, 0 ≤ p.2 ∧ round4 p.2 = p.2) ∧
    kws.Pairwise (fun a b => b.2 ≤ a.2) ∧
    (∀ s : ℚ, (top_keywords (rawScores env rawText)).filter
        (fun p => decide (p.2 = s)) <+:
      (rawScores env rawText).filter (fun p => decide (p.2 = s))) := by
  obtain ⟨hk, -⟩ := analyzeContent_success_eq h
  subst hk
  refine ⟨?_, ?_, ?_, ?_⟩
  · rw [top_keywords_formatted, List.length_map, top_keywords]
    simp [List.length_take]
  · intro p hp
    rw [top_keywords_formatted, List.mem_map] at hp
    obtain ⟨q, hq, rfl⟩ := hp
    have hq2 : q ∈ rawScores env rawText := by
      rw [top_keywords] at hq
      exact mem_sortDesc.mp (List.take_subset _ _ hq)
    exact ⟨round4_nonneg (hnn q hq2), round4_round4 q.2⟩
  · rw [top_keywords_formatted]
    rw [List.pairwise_map]
    have h1 : (top_keywords (rawScores env rawText)).Pairwise
        (fun a b => b.2 ≤ a.2) :=
      (pairwise_sortDesc _).sublist (List.take_sublist _ _)
    exact h1.imp fun hab => round4_mono hab
  · intro s
    have hpre : top_keywords (rawScores env rawText) <+:
        sortDesc (rawScores env rawText) := List.take_prefix _ _
    have h1 := hpre.filter (fun p => decide (p.2 = s))
    rwa [filter_sortDesc] at h1

theorem C7_witness :
    analyzeContent testEnv "hello world".toList = .success [("kw", 1)] "unknown" ∧
    ([("kw", (1:ℚ))].length ≤ 20 ∧
      (∀ p ∈ [("kw", (1:ℚ))], 0 ≤ p.2 ∧ round4 p.2 = p.2) ∧
      ([("kw", (1:ℚ))].Pairwise (fun a b => b.2 ≤ a.2)) ∧
      (∀ s : ℚ, (top_keywords (rawScores testEnv "hello world".toList)).filter
          (fun p => decide (p.2 = s)) <+:
        (rawScores testEnv "hello world".toList).filter
          (fun p => decide (p.2 = s)))) :=
  ⟨analyzeContent_testEnv,
   C7_keyword_entries testEnv "hello world".toList [("kw", 1)] "unknown"
     analyzeContent_testEnv
     (by intro p hp; simp [rawScores, testEnv] at hp; simp [hp])⟩

theorem foldl_inter_subset_acc (l : List (Finset String)) (acc : Finset String) :
    l.foldl (· ∩ ·) acc ⊆ acc := by
  induction l generalizing acc with
  | nil => exact subset_rfl
  | cons s rest ih =>
    exact (ih (acc ∩ s)).trans Finset.inter_subset_left

theorem foldl_inter_subset_mem (l : List (Finset String)) (acc t : Finset String)
    (h : t ∈ l) : l.foldl (· ∩ ·) acc ⊆ t := by
  induction l generalizing acc with
  | nil => exact absurd h (List.not_mem_nil t)
  | cons s rest ih =>
    rcases List.mem_cons.mp h with rfl | h1
    · exact (foldl_inter_subset_acc rest (acc ∩ t)).trans Finset.inter_subset_right
    · exact ih (acc ∩ s) h1

theorem common_keywords_subset (sets : List (Finset String)) (t : Finset String)
    (h : t ∈ sets) : common_keywords sets ⊆ t := by
  cases sets with
  | nil => exact absurd h (List.not_mem_nil t)
  | cons s rest =>
    rcases List.mem_cons.mp h with rfl | h1
    · exact foldl_inter_subset_acc rest t
    · exact foldl_inter_subset_mem rest s t h1

theorem diffOthers_subset (sets : List (Finset String)) (i : ℕ)
    (cur : Finset String) (j : ℕ) : diffOthers i cur sets j ⊆ cur := by
  induction sets generalizing cur j with
  | nil => exact subset_rfl
  | cons s rest ih =>
    refine (ih _ _).trans ?_
    by_cases hij : i ≠ j
    · rw [if_pos hij]; exact Finset.sdiff_subset
    · rw [if_neg hij]

theorem diffOthers_disjoint (sets : List (Finset String)) (i : ℕ)
    (cur : Finset String) (j k : ℕ) (t : Finset String)
    (hget : sets[k]? = some t) (hne : i ≠ j + k) :
    Disjoint (diffOthers i cur sets j) t := by
  induction sets generalizing cur j k with
  | nil => simp at hget
  | cons s rest ih =>
    cases k with
    | zero =>
      rw [List.getElem?_cons_zero] at hget
      have h5 : s = t := by injection hget
      have hij : i ≠ j := by omega
      rw [diffOthers, if_pos hij, ← h5]
      exact Finset.disjoint_left.mpr fun a ha =>
        Finset.disjoint_left.mp Finset.sdiff_disjoint
          (diffOthers_subset rest i (cur \ s) (j + 1) ha)
    | succ k' =>
      rw [List.getElem?_cons_succ] at hget
      exact ih _ (j + 1) k' hget (by omega)

theorem unique_entry_eq (urls : List String) (sets : List (Finset String))
    (i : ℕ) (hi : i < sets.length) :
    (unique_keywords_per_url urls sets).getD i ("", ∅) =
      (urls.getD i "", diffOthers i (sets.getD i ∅) sets 0) := by
  rw [unique_keywords_per_url, List.getD_eq_getElem?_getD, List.getElem?_map,
    List.getElem?_range (by simpa using hi)]
  rfl

/-- C6 (confirmed): for every analysis request, the common keywords are a
subset of every successful URL's term set; each unique-keyword set is a
subset of the corresponding term set and disjoint from every other
successful URL's term set; when no URL succeeds the comparison is empty;
and when exactly one URL succeeds the common keywords and its unique set
both equal that URL's full term set. -/
theorem C6_comparator (env : Env) (inputs : List UrlInput) :
    (∀ t ∈ all_keywords_for_comparison env inputs,
      (analyze env inputs).comparison.common_keywords ⊆ t) ∧
    (∀ i, i < (all_keywords_for_comparison env inputs).length →
      ((analyze env inputs).comparison.unique_keywords_per_url.getD i ("", ∅)).2 ⊆
        (all_keywords_for_comparison env inputs).getD i ∅ ∧
      ∀ j, j < (all_keywords_for_comparison env inputs).length → j ≠ i →
        Disjoint
          ((analyze env inputs).comparison.unique_keywords_per_url.getD i ("", ∅)).2
          ((all_keywords_for_comparison env inputs).getD j ∅)) ∧
    (all_keywords_for_comparison env inputs = [] →
      (analyze env inputs).comparison = ⟨∅, []⟩) ∧
    (∀ s, all_keywords_for_comparison env inputs = [s] →
      (analyze env inputs).comparison.common_keywords = s ∧
      (analyze env inputs).comparison.unique_keywords_per_url.map (·.2) = [s]) := by
  refine ⟨?_, ?_, ?_, ?_⟩
  · intro t ht
    exact common_keywords_subset _ t ht
  · intro i hi
    rw [show (analyze env inputs).comparison.unique_keywords_per_url =
      unique_keywords_per_url (inputs.map (·.url))
        (all_keywords_for_comparison env inputs) from rfl]
    rw [unique_entry_eq _ _ i hi]
    constructor
    · exact diffOthers_subset _ i _ 0
    · intro j hj hji
      refine diffOthers_disjoint _ i _ 0 j _ ?_ (by omega)
      rw [List.getElem?_eq_getElem hj, List.getD_eq_getElem?_getD,
        List.getElem?_eq_getElem hj]
      rfl
  · intro h
    show (⟨common_keywords (all_keywords_for_comparison env inputs),
      unique_keywords_per_url (inputs.map (·.url))
        (all_keywords_for_comparison env inputs)⟩ : ComparisonResult) = ⟨∅, []⟩
    rw [h]
    rfl
  · intro s h
    constructor
    · show common_keywords (all_keywords_for_comparison env inputs) = s
      rw [h]
      rfl
    · show (unique_keywords_per_url (inputs.map (·.url))
        (all_keywords_for_comparison env inputs)).map (·.2) = [s]
      rw [h, unique_keywords_per_url]
      rw [show List.range ([s] : List (Finset String)).length = [0] from rfl]
      simp [diffOthers]

theorem C6_witness :
    (analyze testEnv [⟨"http://b", .ok "hello world".toList⟩]).comparison.common_keywords ⊆
      (["kw"].toFinset : Finset String) :=
  (C6_comparator testEnv [⟨"http://b", .ok "hello world".toList⟩]).1
    ["kw"].toFinset
    (by
      show _ ∈ List.filterMap _ _
      simp only [List.filterMap_cons, List.filterMap_nil,
        analyze_single_url, analyzeContent_testEnv]
      simp)

/-- C9 (confirmed): individual_results has exactly one entry per input
URL, and the i-th entry carries the i-th input URL, so the results
appear in input order. -/
theorem C9_results_order (env : Env) (inputs : List UrlInput) :
    (analyze env inputs).individual_results.length = inputs.length ∧
    ∀ i, i < inputs.length →
      ((analyze env inputs).individual_results.getD i dummyResult).url =
        (inputs.getD i ⟨"", .timeout⟩).url := by
  constructor
  · exact List.length_map _ _
  · intro i hi
    show ((individual_results env inputs).getD i dummyResult).url = _
    rw [individual_results, List.getD_eq_getElem?_getD, List.getElem?_map,
      List.getElem?_eq_getElem hi, List.getD_eq_getElem?_getD,
      List.getElem?_eq_getElem hi]
    simp only [Option.map_some', Option.getD_some]
    cases analyze_single_url env inputs[i].fetch <;> rfl

theorem C9_witness :
    (analyze testEnv [⟨"http://a", .timeout⟩]).individual_results.length =
      ([⟨"http://a", .timeout⟩] : List UrlInput).length ∧
    ((analyze testEnv [⟨"http://a", .timeout⟩]).individual_results.getD 0
        dummyResult).url =
      (([⟨"http://a", .timeout⟩] : List UrlInput).getD 0 ⟨"", .timeout⟩).url :=
  ⟨(C9_results_order testEnv [⟨"http://a", .timeout⟩]).1,
   (C9_results_order testEnv [⟨"http://a", .timeout⟩]).2 0 (by decide)⟩

/-- C8 (confirmed): a URL whose pipeline fails anywhere in the input list
contributes exactly one error entry with a message at its position,
leaves every sibling URL's entry unchanged, and is excluded from the
keyword sets the Comparator runs over, which are exactly those of the
successful URLs. -/
theorem C8_failure_isolated (env : Env) (pre post : List UrlInput)
    (u : UrlInput) (m : String)
    (h : analyze_single_url env u.fetch = .error m) :
    (analyze env (pre ++ u :: post)).individual_results =
      individual_results env pre ++
        ⟨u.url, "error", some m, none, none⟩ :: individual_results env post ∧
    all_keywords_for_comparison env (pre ++ u :: post) =
      all_keywords_for_comparison env (pre ++ post) ∧
    (analyze env (pre ++ u :: post)).comparison.common_keywords =
      common_keywords (all_keywords_for_comparison env (pre ++ post)) := by
  have h2 : all_keywords_for_comparison env (pre ++ u :: post) =
      all_keywords_for_comparison env (pre ++ post) := by
    rw [all_keywords_for_comparison, all_keywords_for_comparison,
      List.filterMap_append, List.filterMap_append, List.filterMap_cons, h]
  refine ⟨?_, h2, ?_⟩
  · show individual_results env (pre ++ u :: post) = _
    rw [individual_results, individual_results, individual_results,
      List.map_append, List.map_cons, h]
  · show common_keywords (all_keywords_for_comparison env (pre ++ u :: post)) = _
    rw [h2]

theorem C8_witness :
    (analyze testEnv [⟨"http://a", .timeout⟩, ⟨"http://b", .ok "hello world".toList⟩]).individual_results =
      individual_results testEnv [] ++
        ⟨"http://a", "error", some msgTimeout, none, none⟩ ::
          individual_results testEnv [⟨"http://b", .ok "hello world".toList⟩] ∧
    all_keywords_for_comparison testEnv
        [⟨"http://a", .timeout⟩, ⟨"http://b", .ok "hello world".toList⟩] =
      all_keywords_for_comparison testEnv [⟨"http://b", .ok "hello world".toList⟩] ∧
    (analyze testEnv [⟨"http://a", .timeout⟩, ⟨"http://b", .ok "hello world".toList⟩]).comparison.common_keywords =
      common_keywords (all_keywords_for_comparison testEnv
        [⟨"http://b", .ok "hello world".toList⟩]) :=
  C8_failure_isolated testEnv [] [⟨"http://b", .ok "hello world".toList⟩]
    ⟨"http://a", .timeout⟩ msgTimeout rfl

/-- The two-URL request exhibiting the pairing defect: the first URL
fails with a timeout, the second succeeds with the single keyword kw. -/
def testInputs : List UrlInput :=
  [⟨"http://a", .timeout⟩, ⟨"http://b", .ok "hello world".toList⟩]

/-- C1, evidence of the defect: in a request where the first URL fails
and only the second succeeds, the unique-keyword set derived from the
successful URL http-b is paired with the failed URL http-a, because the
code indexes the full input URL list with the position taken in the
success-only list of keyword sets.  The claim (and the spec) require the
entry to carry the originating URL http-b. -/
theorem C1_unique_pairing_bug :
    (analyze testEnv testInputs).individual_results =
      [⟨"http://a", "error", some msgTimeout, none, none⟩,
       ⟨"http://b", "success", none, some [("kw", 1)], some "unknown"⟩] ∧
    (analyze testEnv testInputs).comparison.unique_keywords_per_url =
      [("http://a", {"kw"})] ∧
    ("http://a" : String) ≠ "http://b" := by
  have hsets : all_keywords_for_comparison testEnv testInputs = [{"kw"}] := by
    rw [testInputs, all_keywords_for_comparison]
    simp only [List.filterMap_cons, List.filterMap_nil]
    rw [show analyze_single_url testEnv Fetched.timeout =
      SingleResult.error msgTimeout from rfl]
    rw [show analyze_single_url testEnv (Fetched.ok "hello world".toList) =
      analyzeContent testEnv "hello world".toList from rfl, analyzeContent_testEnv]
    simp
  refine ⟨?_, ?_, by decide⟩
  · show individual_results testEnv testInputs = _
    rw [testInputs, individual_results]
    simp only [List.map_cons, List.map_nil]
    rw [show analyze_single_url testEnv Fetched.timeout =
      SingleResult.error msgTimeout from rfl]
    rw [show analyze_single_url testEnv (Fetched.ok "hello world".toList) =
      analyzeContent testEnv "hello world".toList from rfl, analyzeContent_testEnv]
  · show unique_keywords_per_url (testInputs.map (·.url))
      (all_keywords_for_comparison testEnv testInputs) = _
    rw [hsets, unique_keywords_per_url]
    rw [show List.range (([{"kw"}] : List (Finset String))).length = [0] from rfl]
    simp [diffOthers, testInputs]

/-- C10 (confirmed): when the detected language name is unknown, the
stopword set handed to both the token filter and the vectorizer is
empty, the filter keeps every alphabetic token longer than 2 characters
(no stopword of any language is removed, and the whole analysis is
independent of the stopword tables), and the tokenizer falls back to the
english convention. -/
theorem C10_unknown_language (env : Env) (tbl2 : String → Finset String)
    (rawText : List Char) (ws : List String)
    (h : langNameOf env rawText = "unknown") :
    stopOf env rawText = ∅ ∧
    tokenizeLangArg (langNameOf env rawText) = "english" ∧
    filtered_words (stopOf env rawText) ws =
      ws.filter (fun w => pyIsAlpha w && decide (2 < w.length)) ∧
    rawScores env rawText = env.vectorize ∅ (processedOf env rawText) ∧
    analyzeContent env rawText =
      analyzeContent { env with stopTable := tbl2 } rawText := by
  have hstop : ∀ tbl : String → Finset String,
      currentStopwords tbl "unknown" = ∅ := fun tbl => by
    rw [currentStopwords, if_neg (by decide)]
  have h0 : stopOf env rawText = ∅ := by
    rw [stopOf, h, hstop]
  have h0b : stopOf { env with stopTable := tbl2 } rawText = ∅ := by
    rw [stopOf, show langNameOf { env with stopTable := tbl2 } rawText =
      "unknown" from h, hstop]
  have hfil : filteredOf { env with stopTable := tbl2 } rawText =
      filteredOf env rawText := by
    rw [filteredOf, filteredOf, h0b, h0]
    rfl
  have hproc : processedOf { env with stopTable := tbl2 } rawText =
      processedOf env rawText := by
    rw [processedOf, processedOf, hfil]
  have hrs : rawScores { env with stopTable := tbl2 } rawText =
      rawScores env rawText := by
    rw [rawScores, rawScores, hproc, h0, h0b]
  refine ⟨h0, by rw [h]; rfl, ?_, by rw [rawScores, h0], ?_⟩
  · rw [h0, filtered_words]
    apply List.filter_congr
    intro w _
    simp [Finset.not_mem_empty]
  · have hname : langNameOf { env with stopTable := tbl2 } rawText =
        langNameOf env rawText := rfl
    rw [analyzeContent, analyzeContent, hproc, hrs, hname]

theorem C10_witness :
    langNameOf testEnv "hello world".toList = "unknown" ∧
    (stopOf testEnv "hello world".toList = ∅ ∧
      tokenizeLangArg (langNameOf testEnv "hello world".toList) = "english" ∧
      filtered_words (stopOf testEnv "hello world".toList) ["the"] =
        ["the"].filter (fun w => pyIsAlpha w && decide (2 < w.length)) ∧
      rawScores testEnv "hello world".toList =
        testEnv.vectorize ∅ (processedOf testEnv "hello world".toList) ∧
      analyzeContent testEnv "hello world".toList =
        analyzeContent { testEnv with stopTable := fun _ => {"hello"} }
          "hello world".toList) :=
  ⟨by decide,
   C10_unknown_language testEnv (fun _ => {"hello"}) "hello world".toList
     ["the"] (by decide)⟩

end SaasAnalyzer
